import Mathlib

/-!
# userchrome-toggle-extended: the background script `uct-background.js`

A shallow embedding of the settings document, the toggle handler `userToggle`,
the title prefix computation of `updateTitlePrefixes`, the button presentation
of `updateButtonStatus`, the migration `updateSettings` and the message
listener `handleMessage`, followed by the properties proved about them.

Conventions of the embedding.

* The storage document is a value of type `Settings`; a function that reads
  `browser.storage.local` takes the stored document as an argument.
* Calls of the browser API are recorded, in program order, as a list of
  `Effect`s.  The storage content after a run is obtained by replaying the
  `storageSet` effects of the run (`storageAfter`).
* JavaScript numbers that are used as indices are integers; `settingsVersion`
  is a rational number (only `<` is ever applied to it).
* An uncaught `TypeError` is the status `typeError`.
-/

namespace UCT

/-! ## Data model -/

/-- One entry of `settings.toggles`. The source field `prefix` is written
`prefix_` here, since the bare word is reserved in Lean. -/
structure Toggle where
  name : String
  enabled : Bool
  prefix_ : String
  state : Bool
  deriving DecidableEq, Repr

/-- The object `settings.general`. -/
structure General where
  settingsVersion : ℚ
  allowMultiple : Bool
  notifyMe : Bool
  deriving DecidableEq, Repr

/-- The settings document kept in `browser.storage.local`. -/
structure Settings where
  toggles : List Toggle
  general : General
  deriving DecidableEq, Repr

/-- The constant `defaultSettings` (source lines 3-46). -/
def defaultSettings : Settings :=
  { toggles :=
      [ { name := "Style 1", enabled := true, prefix_ := "-", state := false },
        { name := "Style 2", enabled := true, prefix_ := "=", state := false },
        { name := "Style 3", enabled := true, prefix_ := "+", state := false },
        { name := "Style 4", enabled := false, prefix_ := "?", state := false },
        { name := "Style 5", enabled := false, prefix_ := "!", state := false },
        { name := "Style 6", enabled := false, prefix_ := "/", state := false } ],
    general := { settingsVersion := 12 / 10, allowMultiple := false, notifyMe := false } }

/-! ## Browser API calls -/

/-- An argument of `console.log`. -/
inductive LogArg where
  | str (s : String)
  | null
  | num (n : Nat)
  | toggle (t : Toggle)
  | settings (s : Settings)
  deriving DecidableEq, Repr

/-- A call of the host API made by the background script. -/
inductive Effect where
  /-- The call `console.log(...args)`. -/
  | consoleLog (args : List LogArg)
  /-- The call `browser.storage.local.set(settings)`, awaited. -/
  | storageSet (settings : Settings)
  /-- The call `browser.notifications.create(id, {type: "basic", title, message})`. -/
  | notificationsCreate (id : String) (title : String) (message : String)
  /-- The call `browser.windows.update(windowId.id, {titlePreface})`. -/
  | windowsUpdate (windowId : Nat) (titlePreface : String)
  /-- The call `browser.browserAction.setTitle({title})`. -/
  | setTitle (title : String)
  /-- The call `browser.browserAction.setPopup({popup})`; `none` is `null`. -/
  | setPopup (popup : Option String)
  /-- A call `updateTitlePrefixes()` that is started and not awaited. -/
  | startUpdateTitlePrefixes
  /-- A call `updateButtonStatus()` that is started and not awaited. -/
  | startUpdateButtonStatus
  /-- The call `sendResponse({content})`. -/
  | sendResponse (content : Settings)
  deriving DecidableEq, Repr

/-- How a run of an async function ended. -/
inductive Status where
  /-- The body ran to its last statement. -/
  | finished
  /-- The body left through an early `return`. -/
  | returnedEarly
  /-- The body raised a `TypeError` (property read on `undefined`). -/
  | typeError
  deriving DecidableEq, Repr

/-- The observable behaviour of one run: how it ended and what it called. -/
structure Run where
  status : Status
  effects : List Effect
  deriving DecidableEq, Repr

/-- The effect of one API call on the stored document. -/
def applyEffect (store : Settings) : Effect → Settings
  | .storageSet settings => settings
  | _ => store

/-- The stored document after the calls `effects` were made on `store`. -/
def storageAfter (store : Settings) (effects : List Effect) : Settings :=
  effects.foldl applyEffect store

/-! ## Arguments of `userToggle` -/

/-- The values `userToggle` receives as `styleId`: nothing, a number
(`userToggle(1)`, the `id` of a message; a non-negative integer, see
`jsString` for the range), or a string (a command name). -/
inductive StyleArg where
  | undefined
  | num (n : Nat)
  | str (s : String)
  deriving DecidableEq, Repr

/-- The conversion `String(styleId)`. A number is printed in plain decimal,
which is what JavaScript prints for the integers up to `2^53`: those a number
holds exactly and prints digit for digit. Beyond that JavaScript prints the
shortest digits that read back as the same number, and from `10^21` on it
prints an exponent (`"1e+21"`), so `num n` stands for a JavaScript number only
when `n ≤ 2^53`. -/
def jsString : StyleArg → String
  | .undefined => "undefined"
  | .num n => toString n
  | .str s => s

/-- The match `s.match(/[0-9]+$/)`: `none` for `null`, otherwise element `[0]`
of the match, which is the longest run of ASCII digits that ends the string. -/
def matchTrailingDigits (s : String) : Option String :=
  let digits := (s.toList.reverse.takeWhile Char.isDigit).reverse
  if digits.isEmpty then none else some (String.mk digits)

/-- The numeric value of a string of decimal digits (the implicit `ToNumber`
in `styleId[0] - 1`). Values beyond `2^53`, which JavaScript rounds, exceed
every array length and so index no toggle in either reading. -/
def toNumber (digits : String) : Nat :=
  digits.toList.foldl (fun acc c => 10 * acc + (c.toNat - 48)) 0

/-- The expression `styleId[0] - 1`. -/
def styleIndex (digits : String) : Int :=
  (toNumber digits : Int) - 1

/-- The array read `toggles[k]`; `none` is `undefined`. -/
def toggleAt (toggles : List Toggle) (k : Int) : Option Toggle :=
  if 0 ≤ k then toggles[k.toNat]? else none

/-! ## `userToggle` (source lines 166-217) -/

/-- Lines 174-177: the guard `styleId && !settings.toggles[styleId[0] - 1].enabled`.
The result is `some run` when the call ends here (reading `.enabled` of
`undefined` raises; a disabled style is logged and the function returns) and
`none` when execution goes on. -/
def disabledGuard (settings : Settings) (styleId : Option String) : Option Run :=
  match styleId with
  | none => none
  | some digits =>
    match toggleAt settings.toggles (styleIndex digits) with
    | none => some { status := .typeError, effects := [] }
    | some target =>
      if !target.enabled then
        some { status := .returnedEarly,
               effects := [.consoleLog [.str "Style is disabled", .toggle target]] }
      else none

/-- Lines 182-185: the loop body applied to the toggles from index `i` on;
toggle `i` is switched off when `!styleId || styleId[0] - 1 != i`. -/
def resetLoop (styleId : Option String) : Nat → List Toggle → List Toggle
  | _, [] => []
  | i, t :: rest =>
    let reset : Bool :=
      match styleId with
      | none => true
      | some digits => styleIndex digits != (i : Int)
    (if reset then { t with state := false } else t) :: resetLoop styleId (i + 1) rest

/-- Lines 181-186: the toggles after the conditional reset. -/
def resetOthers (settings : Settings) (styleId : Option String) : List Toggle :=
  if !settings.general.allowMultiple || styleId.isNone then
    resetLoop styleId 0 settings.toggles
  else settings.toggles

/-- The values lines 189-200 leave behind: the toggles, the name of the object
`toggle` and the word `hrState`. -/
structure Inverted where
  toggles : List Toggle
  toggleName : String
  hrState : String
  deriving DecidableEq, Repr

/-- Lines 189-200: with a style selected, its state is inverted and stored
back; `none` is the `TypeError` of reading `.state` of `undefined`. Without a
style, `toggle` stays `{ name: 'all styles' }` and `hrState` stays `'off'`. -/
def invertSelected (toggles : List Toggle) (styleId : Option String) : Option Inverted :=
  match styleId with
  | none => some { toggles := toggles, toggleName := "all styles", hrState := "off" }
  | some digits =>
    match toggleAt toggles (styleIndex digits) with
    | none => none
    | some toggle =>
      let newState := !toggle.state
      some { toggles := toggles.set (styleIndex digits).toNat { toggle with state := newState },
             toggleName := toggle.name,
             hrState := if newState then "on" else "off" }

/-- Lines 203-216: the log line, the notification when `notifyMe` is set, the
awaited storage write and the two calls that refresh the derived views. -/
def reportAndSave (settings : Settings) (styleId : Option String) (toggleName hrState : String) :
    List Effect :=
  [.consoleLog [.str "Toggling",
      (match styleId with
       | none => LogArg.null
       | some digits => LogArg.str digits),
      .str hrState]]
  ++ (if settings.general.notifyMe then
        [.notificationsCreate
          ("toggle-" ++ (match styleId with
                         | none => "null"
                         | some digits => digits))
          "Userchrome style toggle"
          ("Turned " ++ toggleName ++ " " ++ hrState)]
      else [])
  ++ [.storageSet settings, .startUpdateTitlePrefixes, .startUpdateButtonStatus]

set_option linter.unusedVariables false in
/-- The function `userToggle(styleId, newState)` run on the stored document
`stored`. The parameter `newState` is overwritten at line 194 before it is
read. -/
def userToggle (stored : Settings) (styleArg : StyleArg) (newState : Option Bool) : Run :=
  let styleId := matchTrailingDigits (jsString styleArg)
  let settings := stored
  match disabledGuard settings styleId with
  | some run => run
  | none =>
    let settings := { settings with toggles := resetOthers settings styleId }
    match invertSelected settings.toggles styleId with
    | none => { status := .typeError, effects := [] }
    | some inverted =>
      let settings := { settings with toggles := inverted.toggles }
      { status := .finished,
        effects := reportAndSave settings styleId inverted.toggleName inverted.hrState }

/-! ## `updateTitlePrefixes` (source lines 141-163) -/

/-- Lines 150-158: the loop over the toggles that are left, with the value of
`titlePrefix` so far; `break` ends it after the first active toggle when
`allowMultiple` is off. -/
def titlePrefixLoop (allowMultiple : Bool) : List Toggle → String → String
  | [], titlePrefix => titlePrefix
  | t :: rest, titlePrefix =>
    if t.state then
      let titlePrefix := titlePrefix ++ t.prefix_
      if !allowMultiple then titlePrefix
      else titlePrefixLoop allowMultiple rest titlePrefix
    else titlePrefixLoop allowMultiple rest titlePrefix

/-- The value of the variable `titlePrefix` after the loop. -/
def titlePrefix (settings : Settings) : String :=
  titlePrefixLoop settings.general.allowMultiple settings.toggles ""

/-- The function `updateTitlePrefixes(windowId)`; `currentWindow` is the
answer of `browser.windows.getCurrent()`. -/
def updateTitlePrefixes (stored : Settings) (currentWindow : Nat) (windowId : Option Nat) :
    List Effect :=
  [.windowsUpdate (windowId.getD currentWindow) (titlePrefix stored)]

/-! ## `updateButtonStatus` (source lines 83-107) -/

/-- Line 87: the `reduce` that counts the enabled toggles. -/
def togglesEnabled (toggles : List Toggle) : Nat :=
  toggles.foldl (fun count toggle => if toggle.enabled then count + 1 else count) 0

/-- The function `updateButtonStatus()` run on the stored document. -/
def updateButtonStatus (stored : Settings) : Run :=
  if togglesEnabled stored.toggles < 2 then
    match stored.toggles[0]? with
    | none => { status := .typeError, effects := [] }
    | some toggle =>
      { status := .finished,
        effects := [.setTitle ("Turn " ++ toggle.name ++ " " ++ (if toggle.state then "off" else "on")),
                    .setPopup none,
                    .consoleLog [.str "Disabled popup mode"]] }
  else
    { status := .finished,
      effects := [.setTitle "Show userchrome toggles",
                  .setPopup (some "popup/popup.html"),
                  .consoleLog [.str "Enabled popup mode", .num (togglesEnabled stored.toggles)]] }

/-! ## `updateSettings` (source lines 70-81) -/

/-- The function `updateSettings(settings)`: the returned document and the
API calls made. Line 76 is an expression statement, a comparison whose value
is dropped. -/
def updateSettings (settings : Settings) : Settings × List Effect :=
  if settings.general.settingsVersion < defaultSettings.general.settingsVersion then
    let settings :=
      if settings.general.settingsVersion < 12 / 10 then
        { settings with general := { settings.general with notifyMe := defaultSettings.general.notifyMe } }
      else settings
    let _dropped : Bool :=
      decide (settings.general.settingsVersion < defaultSettings.general.settingsVersion)
    (settings, [.storageSet settings])
  else (settings, [])

/-! ## `handleMessage` (source lines 219-233) -/

/-- A message delivered to `browser.runtime.onMessage`: its `type`, and the
fields `id` and `state` that a toggle request carries (`undefined` and `none`
when the message has none). -/
structure Message where
  type : String
  id : StyleArg
  state : Option Bool
  deriving DecidableEq, Repr

/-- What `handleMessage` sets off: a call of `userToggle` or of
`updateButtonStatus` (neither is awaited), or the reply through
`sendResponse`. -/
inductive Dispatch where
  | userToggle (styleId : StyleArg) (newState : Option Bool)
  | updateButtonStatus
  | sendResponse (content : Settings)
  deriving DecidableEq, Repr

/-- The function `handleMessage(message, sender, sendResponse)`: three
independent `if` statements on `message.type`, in source order. -/
def handleMessage (message : Message) : List Dispatch :=
  (if message.type = "toggle" then [Dispatch.userToggle message.id message.state] else [])
  ++ (if message.type = "updButtonStatus" then [Dispatch.updateButtonStatus] else [])
  ++ (if message.type = "getDefaults" then [Dispatch.sendResponse defaultSettings] else [])

/-! ## Vocabulary of the properties -/

/-- The number of toggles with `state = true`. -/
def activeCount (settings : Settings) : Nat :=
  settings.toggles.countP (fun t => t.state)

/-- The stored document after `userToggle(styleArg, newState)` ran on `stored`. -/
def afterToggle (stored : Settings) (styleArg : StyleArg) (newState : Option Bool) : Settings :=
  storageAfter stored (userToggle stored styleArg newState).effects

/-- The title prefix in the words of the specification: with `allowMultiple`
the prefixes of all active toggles joined in sequence order, without it the
prefix of the first active toggle, and the empty string when none is active. -/
def specTitlePrefix (settings : Settings) : String :=
  if settings.general.allowMultiple then
    String.join ((settings.toggles.filter (fun t => t.state)).map (fun t => t.prefix_))
  else
    match settings.toggles.find? (fun t => t.state) with
    | some t => t.prefix_
    | none => ""

/-- The stored document after a sequence of `userToggle` calls, each given by
its two arguments, ran one after the other from `start`. -/
def afterCalls (start : Settings) (calls : List (StyleArg × Option Bool)) : Settings :=
  calls.foldl (fun stored call => afterToggle stored call.1 call.2) start

/-- In the trace `effects`, every notification comes after some storage write
(the write is awaited, so it is acknowledged when the next call is made). -/
def notifiesAfterWrite (effects : List Effect) : Prop :=
  ∀ (i : Nat) (id title message : String),
    effects[i]? = some (Effect.notificationsCreate id title message) →
    ∃ (j : Nat) (written : Settings), j < i ∧ effects[j]? = some (Effect.storageSet written)

/-- The fields of a toggle that are not its `state`. -/
def fixedFields (t : Toggle) : String × Bool × String :=
  (t.name, t.enabled, t.prefix_)

/-! ## Sample documents -/

/-- The default document with styles 1 and 2 both active. -/
def twoActive : Settings :=
  { defaultSettings with
    toggles :=
      [ { name := "Style 1", enabled := true, prefix_ := "-", state := true },
        { name := "Style 2", enabled := true, prefix_ := "=", state := true },
        { name := "Style 3", enabled := true, prefix_ := "+", state := false },
        { name := "Style 4", enabled := false, prefix_ := "?", state := false },
        { name := "Style 5", enabled := false, prefix_ := "!", state := false },
        { name := "Style 6", enabled := false, prefix_ := "/", state := false } ] }

/-- The default document with style 2 active. -/
def secondActive : Settings :=
  { defaultSettings with
    toggles :=
      [ { name := "Style 1", enabled := true, prefix_ := "-", state := false },
        { name := "Style 2", enabled := true, prefix_ := "=", state := true },
        { name := "Style 3", enabled := true, prefix_ := "+", state := false },
        { name := "Style 4", enabled := false, prefix_ := "?", state := false },
        { name := "Style 5", enabled := false, prefix_ := "!", state := false },
        { name := "Style 6", enabled := false, prefix_ := "/", state := false } ] }

/-- The default document with `allowMultiple` switched on. -/
def defaultMultiple : Settings :=
  { defaultSettings with
    general := { settingsVersion := 12 / 10, allowMultiple := true, notifyMe := false } }

/-- A document of schema version 1.0 in which the user allows several styles,
has style 2 active and asks for notifications. -/
def versionOne : Settings :=
  { toggles := secondActive.toggles,
    general := { settingsVersion := 1, allowMultiple := true, notifyMe := true } }

/-- A document whose only enabled style is the first one. -/
def singleStyle : Settings :=
  { defaultSettings with
    toggles :=
      [ { name := "Style 1", enabled := true, prefix_ := "-", state := false },
        { name := "Style 2", enabled := false, prefix_ := "=", state := false } ] }

/-- The default document with notifications switched on. -/
def notifyDefault : Settings :=
  { defaultSettings with
    general := { settingsVersion := 12 / 10, allowMultiple := false, notifyMe := true } }

/-- A document of a schema version beyond the current default. -/
def versionTwo : Settings :=
  { toggles := secondActive.toggles,
    general := { settingsVersion := 2, allowMultiple := true, notifyMe := true } }

/-! ## Auxiliary facts -/

theorem settings_eq_of_fields {a b : Settings} (htoggles : a.toggles = b.toggles)
    (hgeneral : a.general = b.general) : a = b := by
  cases a
  cases b
  simp only [Settings.mk.injEq]
  exact ⟨htoggles, hgeneral⟩

theorem storageAfter_reportAndSave (store settings : Settings) (styleId : Option String)
    (toggleName hrState : String) :
    storageAfter store (reportAndSave settings styleId toggleName hrState) = settings := by
  unfold reportAndSave storageAfter
  cases settings.general.notifyMe <;> simp [applyEffect]

theorem toggleAt_eq_some {toggles : List Toggle} {k : Int} {t : Toggle}
    (h : toggleAt toggles k = some t) : 0 ≤ k ∧ toggles[k.toNat]? = some t := by
  unfold toggleAt at h
  by_cases hk : 0 ≤ k
  · rw [if_pos hk] at h
    exact ⟨hk, h⟩
  · rw [if_neg hk] at h
    cases h

/-- The pattern `/[0-9]+$/` fails exactly on the strings that do not end in a
digit (the empty string among them). -/
theorem matchTrailingDigits_eq_none_iff (s : String) :
    matchTrailingDigits s = none ↔ ∀ c, s.toList.getLast? = some c → c.isDigit = false := by
  unfold matchTrailingDigits
  rw [List.getLast?_eq_head?_reverse]
  cases hrev : s.toList.reverse with
  | nil => simp
  | cons c rest =>
    cases hc : c.isDigit <;> simp [List.takeWhile_cons, hc]

theorem length_resetLoop (styleId : Option String) (i : Nat) (l : List Toggle) :
    (resetLoop styleId i l).length = l.length := by
  induction l generalizing i with
  | nil => rfl
  | cons t rest ih => simp [resetLoop, ih]

theorem resetLoop_none (i : Nat) (l : List Toggle) :
    resetLoop none i l = l.map (fun t => { t with state := false }) := by
  induction l generalizing i with
  | nil => rfl
  | cons t rest ih => simp [resetLoop, ih]

theorem getElem?_resetLoop_some (digits : String) (i j : Nat) (l : List Toggle) :
    (resetLoop (some digits) i l)[j]? =
      (l[j]?).map (fun t =>
        if styleIndex digits = ((i + j : Nat) : Int) then t else { t with state := false }) := by
  induction l generalizing i j with
  | nil => simp [resetLoop]
  | cons t rest ih =>
    cases j with
    | zero =>
      by_cases h : styleIndex digits = (i : Int) <;> simp [resetLoop, h]
    | succ j =>
      simp only [resetLoop, List.getElem?_cons_succ, ih]
      have : i + 1 + j = i + (j + 1) := by omega
      rw [this]

theorem getElem?_resetOthers_some (stored : Settings) (digits : String) (j : Nat) :
    (resetOthers stored (some digits))[j]? =
      if stored.general.allowMultiple then stored.toggles[j]?
      else (stored.toggles[j]?).map (fun t =>
        if styleIndex digits = (j : Int) then t else { t with state := false }) := by
  unfold resetOthers
  cases stored.general.allowMultiple
  · simp [getElem?_resetLoop_some]
  · simp

theorem toggleAt_resetOthers {stored : Settings} {digits : String} {t : Toggle}
    (ht : toggleAt stored.toggles (styleIndex digits) = some t) :
    toggleAt (resetOthers stored (some digits)) (styleIndex digits) = some t := by
  obtain ⟨hk, hget⟩ := toggleAt_eq_some ht
  unfold toggleAt
  rw [if_pos hk, getElem?_resetOthers_some, hget]
  have hcast : ((styleIndex digits).toNat : Int) = styleIndex digits := Int.toNat_of_nonneg hk
  cases stored.general.allowMultiple <;> simp [hcast]

/-- The run of `userToggle` when the trailing digits select an enabled toggle. -/
theorem userToggle_enabled {stored : Settings} {styleArg : StyleArg} {digits : String}
    {t : Toggle} (newState : Option Bool)
    (hd : matchTrailingDigits (jsString styleArg) = some digits)
    (ht : toggleAt stored.toggles (styleIndex digits) = some t)
    (he : t.enabled = true) :
    userToggle stored styleArg newState =
      { status := .finished,
        effects := reportAndSave
          { stored with
            toggles := (resetOthers stored (some digits)).set (styleIndex digits).toNat
              { t with state := !t.state } }
          (some digits) t.name (if !t.state then "on" else "off") } := by
  simp [userToggle, hd, disabledGuard, ht, he, invertSelected, toggleAt_resetOthers ht]

theorem afterToggle_enabled {stored : Settings} {styleArg : StyleArg} {digits : String}
    {t : Toggle} (newState : Option Bool)
    (hd : matchTrailingDigits (jsString styleArg) = some digits)
    (ht : toggleAt stored.toggles (styleIndex digits) = some t)
    (he : t.enabled = true) :
    afterToggle stored styleArg newState =
      { stored with
        toggles := (resetOthers stored (some digits)).set (styleIndex digits).toNat
          { t with state := !t.state } } := by
  unfold afterToggle
  rw [userToggle_enabled newState hd ht he, storageAfter_reportAndSave]

theorem getElem?_afterToggle_enabled {stored : Settings} {styleArg : StyleArg}
    {digits : String} {t : Toggle} (newState : Option Bool)
    (hd : matchTrailingDigits (jsString styleArg) = some digits)
    (ht : toggleAt stored.toggles (styleIndex digits) = some t)
    (he : t.enabled = true) (j : Nat) :
    (afterToggle stored styleArg newState).toggles[j]? =
      if j = (styleIndex digits).toNat then some { t with state := !t.state }
      else if stored.general.allowMultiple then stored.toggles[j]?
      else (stored.toggles[j]?).map (fun u => { u with state := false }) := by
  obtain ⟨hk, hget⟩ := toggleAt_eq_some ht
  have hlt : (styleIndex digits).toNat < stored.toggles.length := by
    rcases List.getElem?_eq_some_iff.mp hget with ⟨h, _⟩
    exact h
  have hlen : (resetOthers stored (some digits)).length = stored.toggles.length := by
    unfold resetOthers
    split
    · exact length_resetLoop _ _ _
    · rfl
  rw [afterToggle_enabled newState hd ht he]
  simp only [List.getElem?_set, hlen, hlt, if_true]
  by_cases hj : j = (styleIndex digits).toNat
  · subst hj
    simp
  · have hne : ¬ (styleIndex digits).toNat = j := fun h => hj h.symm
    have hne' : ¬ styleIndex digits = (j : Int) := by
      intro h
      apply hj
      rw [h]
      simp
    rw [if_neg hne, if_neg hj, getElem?_resetOthers_some]
    cases stored.general.allowMultiple <;> simp [hne']

/-- The run of `userToggle` when the argument has no trailing digits. -/
theorem userToggle_noId {stored : Settings} {styleArg : StyleArg} (newState : Option Bool)
    (hd : matchTrailingDigits (jsString styleArg) = none) :
    userToggle stored styleArg newState =
      { status := .finished,
        effects := reportAndSave
          { stored with toggles := stored.toggles.map (fun t => { t with state := false }) }
          none "all styles" "off" } := by
  simp [userToggle, hd, disabledGuard, invertSelected, resetOthers, resetLoop_none]

theorem afterToggle_noId {stored : Settings} {styleArg : StyleArg} (newState : Option Bool)
    (hd : matchTrailingDigits (jsString styleArg) = none) :
    afterToggle stored styleArg newState =
      { stored with toggles := stored.toggles.map (fun t => { t with state := false }) } := by
  unfold afterToggle
  rw [userToggle_noId newState hd, storageAfter_reportAndSave]

/-- The run of `userToggle` when the trailing digits select a disabled toggle. -/
theorem userToggle_disabled {stored : Settings} {styleArg : StyleArg} {digits : String}
    {t : Toggle} (newState : Option Bool)
    (hd : matchTrailingDigits (jsString styleArg) = some digits)
    (ht : toggleAt stored.toggles (styleIndex digits) = some t)
    (he : t.enabled = false) :
    userToggle stored styleArg newState =
      { status := .returnedEarly,
        effects := [.consoleLog [.str "Style is disabled", .toggle t]] } := by
  simp [userToggle, hd, disabledGuard, ht, he]

/-- A list in which every position but `k` is switched off has at most one
active element. -/
theorem countP_state_le_one (l : List Toggle) (k : Nat)
    (h : ∀ j u, j ≠ k → l[j]? = some u → u.state = false) :
    l.countP (fun t => t.state) ≤ 1 := by
  induction l generalizing k with
  | nil => simp
  | cons a rest ih =>
    rw [List.countP_cons]
    cases k with
    | zero =>
      have hrest : rest.countP (fun t => t.state) = 0 := by
        rw [List.countP_eq_zero]
        intro u hu
        obtain ⟨j, hj⟩ := List.getElem?_of_mem hu
        have := h (j + 1) u (by omega) (by simpa using hj)
        simp [this]
      rw [hrest]
      split <;> omega
    | succ k =>
      have ha : a.state = false := h 0 a (by omega) (by simp)
      have := ih k (fun j u hj hu => h (j + 1) u (by omega) (by simpa using hu))
      simp [ha]
      exact this

theorem titlePrefixLoop_multiple (l : List Toggle) (acc : String) :
    titlePrefixLoop true l acc =
      ((l.filter (fun t => t.state)).map (fun t => t.prefix_)).foldl (fun r s => r ++ s) acc := by
  induction l generalizing acc with
  | nil => rfl
  | cons t rest ih =>
    cases hs : t.state <;> simp [titlePrefixLoop, hs, ih]

theorem titlePrefixLoop_single (l : List Toggle) (acc : String) :
    titlePrefixLoop false l acc =
      match l.find? (fun t => t.state) with
      | some t => acc ++ t.prefix_
      | none => acc := by
  induction l generalizing acc with
  | nil => rfl
  | cons t rest ih =>
    cases hs : t.state <;> simp [titlePrefixLoop, hs, ih]

/-- In a list whose only active position is `k`, the first active element is
the one at `k`. -/
theorem find?_state_of_unique (l : List Toggle) (k : Nat) (u : Toggle)
    (hk : l[k]? = some u)
    (h : ∀ j v, l[j]? = some v → (v.state = true ↔ j = k)) :
    l.find? (fun t => t.state) = some u := by
  induction l generalizing k with
  | nil => simp at hk
  | cons a rest ih =>
    cases k with
    | zero =>
      have hau : a = u := by simpa using hk
      have hs : a.state = true := (h 0 a (by simp)).mpr rfl
      rw [List.find?_cons_of_pos _ hs, hau]
    | succ k =>
      have ha : a.state = false := by
        cases hs : a.state
        · rfl
        · have := (h 0 a (by simp)).mp hs
          omega
      have hrest := ih k (by simpa using hk) (fun j v hv => by
        have := h (j + 1) v (by simpa using hv)
        simpa using this)
      simp [List.find?, ha, hrest]

theorem foldl_count_enabled (l : List Toggle) (n : Nat) :
    l.foldl (fun count toggle => if toggle.enabled then count + 1 else count) n =
      n + l.countP (fun t => t.enabled) := by
  induction l generalizing n with
  | nil => simp
  | cons t rest ih =>
    rw [List.foldl_cons, ih, List.countP_cons]
    cases t.enabled
    · simp
    · simp
      omega

/-- The run of `userToggle` when the trailing digits index no toggle. -/
theorem userToggle_outOfRange {stored : Settings} {styleArg : StyleArg} {digits : String}
    (newState : Option Bool)
    (hd : matchTrailingDigits (jsString styleArg) = some digits)
    (ht : toggleAt stored.toggles (styleIndex digits) = none) :
    userToggle stored styleArg newState = { status := .typeError, effects := [] } := by
  simp [userToggle, hd, disabledGuard, ht]

theorem afterToggle_outOfRange {stored : Settings} {styleArg : StyleArg} {digits : String}
    (newState : Option Bool)
    (hd : matchTrailingDigits (jsString styleArg) = some digits)
    (ht : toggleAt stored.toggles (styleIndex digits) = none) :
    afterToggle stored styleArg newState = stored := by
  unfold afterToggle
  rw [userToggle_outOfRange newState hd ht]
  rfl

theorem afterToggle_disabled {stored : Settings} {styleArg : StyleArg} {digits : String}
    {t : Toggle} (newState : Option Bool)
    (hd : matchTrailingDigits (jsString styleArg) = some digits)
    (ht : toggleAt stored.toggles (styleIndex digits) = some t)
    (he : t.enabled = false) :
    afterToggle stored styleArg newState = stored := by
  unfold afterToggle
  rw [userToggle_disabled newState hd ht he]
  rfl

/-- The four ways a call of `userToggle` can go. -/
theorem userToggle_cases (stored : Settings) (styleArg : StyleArg) :
    matchTrailingDigits (jsString styleArg) = none ∨
    (∃ digits, matchTrailingDigits (jsString styleArg) = some digits ∧
      toggleAt stored.toggles (styleIndex digits) = none) ∨
    (∃ digits t, matchTrailingDigits (jsString styleArg) = some digits ∧
      toggleAt stored.toggles (styleIndex digits) = some t ∧ t.enabled = false) ∨
    (∃ digits t, matchTrailingDigits (jsString styleArg) = some digits ∧
      toggleAt stored.toggles (styleIndex digits) = some t ∧ t.enabled = true) := by
  cases hd : matchTrailingDigits (jsString styleArg) with
  | none => exact Or.inl rfl
  | some digits =>
    cases ht : toggleAt stored.toggles (styleIndex digits) with
    | none => exact Or.inr (Or.inl ⟨digits, rfl, ht⟩)
    | some t =>
      cases he : t.enabled with
      | false => exact Or.inr (Or.inr (Or.inl ⟨digits, t, rfl, ht, he⟩))
      | true => exact Or.inr (Or.inr (Or.inr ⟨digits, t, rfl, ht, he⟩))

theorem afterToggle_general (stored : Settings) (styleArg : StyleArg)
    (newState : Option Bool) :
    (afterToggle stored styleArg newState).general = stored.general := by
  rcases userToggle_cases stored styleArg with hd | ⟨digits, hd, ht⟩ | ⟨digits, t, hd, ht, he⟩ |
    ⟨digits, t, hd, ht, he⟩
  · rw [afterToggle_noId newState hd]
  · rw [afterToggle_outOfRange newState hd ht]
  · rw [afterToggle_disabled newState hd ht he]
  · rw [afterToggle_enabled newState hd ht he]

theorem afterToggle_fixedFields (stored : Settings) (styleArg : StyleArg)
    (newState : Option Bool) :
    (afterToggle stored styleArg newState).toggles.map fixedFields =
      stored.toggles.map fixedFields := by
  rcases userToggle_cases stored styleArg with hd | ⟨digits, hd, ht⟩ | ⟨digits, t, hd, ht, he⟩ |
    ⟨digits, t, hd, ht, he⟩
  · rw [afterToggle_noId newState hd]
    simp [fixedFields, Function.comp_def]
  · rw [afterToggle_outOfRange newState hd ht]
  · rw [afterToggle_disabled newState hd ht he]
  · obtain ⟨_, hget⟩ := toggleAt_eq_some ht
    apply List.ext_getElem?
    intro j
    rw [List.getElem?_map, List.getElem?_map, getElem?_afterToggle_enabled newState hd ht he]
    by_cases hj : j = (styleIndex digits).toNat
    · rw [if_pos hj, hj, hget]
      rfl
    · rw [if_neg hj]
      cases stored.general.allowMultiple
      · cases stored.toggles[j]? <;> simp [fixedFields]
      · simp

theorem activeCount_afterToggle (stored : Settings) (styleArg : StyleArg)
    (newState : Option Bool) (hAM : stored.general.allowMultiple = false)
    (hone : activeCount stored ≤ 1) :
    activeCount (afterToggle stored styleArg newState) ≤ 1 := by
  rcases userToggle_cases stored styleArg with hd | ⟨digits, hd, ht⟩ | ⟨digits, t, hd, ht, he⟩ |
    ⟨digits, t, hd, ht, he⟩
  · rw [afterToggle_noId newState hd]
    have : List.countP (fun t : Toggle => t.state)
        (stored.toggles.map (fun t => { t with state := false })) = 0 := by
      rw [List.countP_eq_zero]
      intro u hu
      obtain ⟨v, _, rfl⟩ := List.mem_map.mp hu
      simp
    simp only [activeCount, this]
    omega
  · rw [afterToggle_outOfRange newState hd ht]
    exact hone
  · rw [afterToggle_disabled newState hd ht he]
    exact hone
  · apply countP_state_le_one _ (styleIndex digits).toNat
    intro j u hj hu
    rw [getElem?_afterToggle_enabled newState hd ht he, if_neg hj, hAM] at hu
    simp only [Bool.false_eq_true, if_false, Option.map_eq_some'] at hu
    obtain ⟨v, _, rfl⟩ := hu
    rfl

/-- The run of `updateSettings` on a document older than the default. -/
theorem updateSettings_old {settings : Settings}
    (h : settings.general.settingsVersion < defaultSettings.general.settingsVersion) :
    updateSettings settings =
      ({ settings with general := { settings.general with notifyMe := false } },
       [.storageSet { settings with general := { settings.general with notifyMe := false } }]) := by
  have h2 : settings.general.settingsVersion < 12 / 10 := h
  unfold updateSettings
  rw [if_pos h]
  simp only [if_pos h2]
  rfl

/-- The run of `updateSettings` on a document that is not older than the
default. -/
theorem updateSettings_current {settings : Settings}
    (h : ¬ settings.general.settingsVersion < defaultSettings.general.settingsVersion) :
    updateSettings settings = (settings, []) := by
  unfold updateSettings
  rw [if_neg h]

/-! ## Exclusivity after a call (C1) -/

/-- C1, as stated, fails: with `allowMultiple = false` and styles 1 and 2 both
active, `userToggle(4)` (style 4 is disabled) returns early and the document
still has two active toggles. -/
theorem userToggle_disabled_keeps_two_active :
    twoActive.general.allowMultiple = false ∧
    (∃ t, toggleAt twoActive.toggles 3 = some t ∧ t.enabled = false) ∧
    ¬ activeCount (afterToggle twoActive (.num 4) none) ≤ 1 := by
  refine ⟨rfl, ⟨_, rfl, rfl⟩, ?_⟩
  decide

/-- C1 (amended): for every document with `allowMultiple = false`, a call of
`userToggle` whose id is absent (no trailing digits) or is the id of an enabled
toggle leaves at most one toggle with `state = true`; a call with the id of a
disabled toggle leaves the document as it was. -/
theorem userToggle_at_most_one_active (stored : Settings) (styleArg : StyleArg)
    (newState : Option Bool) (hAM : stored.general.allowMultiple = false) :
    (matchTrailingDigits (jsString styleArg) = none →
      activeCount (afterToggle stored styleArg newState) ≤ 1) ∧
    (∀ digits t, matchTrailingDigits (jsString styleArg) = some digits →
      toggleAt stored.toggles (styleIndex digits) = some t → t.enabled = true →
      activeCount (afterToggle stored styleArg newState) ≤ 1) ∧
    (∀ digits t, matchTrailingDigits (jsString styleArg) = some digits →
      toggleAt stored.toggles (styleIndex digits) = some t → t.enabled = false →
      afterToggle stored styleArg newState = stored) := by
  refine ⟨?_, ?_, ?_⟩
  · intro hd
    rw [afterToggle_noId newState hd]
    have : List.countP (fun t : Toggle => t.state)
        (stored.toggles.map (fun t => { t with state := false })) = 0 := by
      rw [List.countP_eq_zero]
      intro u hu
      obtain ⟨v, _, rfl⟩ := List.mem_map.mp hu
      simp
    simp only [activeCount, this]
    omega
  · intro digits t hd ht he
    apply countP_state_le_one _ (styleIndex digits).toNat
    intro j u hj hu
    rw [getElem?_afterToggle_enabled newState hd ht he, if_neg hj, hAM] at hu
    simp only [Bool.false_eq_true, if_false, Option.map_eq_some'] at hu
    obtain ⟨v, _, rfl⟩ := hu
    rfl
  · intro digits t hd ht he
    unfold afterToggle
    rw [userToggle_disabled newState hd ht he]
    rfl

/-- C1 (amended), at the document with styles 1 and 2 active: `userToggle(1)`
and `userToggle()` leave at most one active toggle, `userToggle(4)` leaves the
document as it was. -/
theorem userToggle_at_most_one_active_witness :
    twoActive.general.allowMultiple = false ∧
    activeCount (afterToggle twoActive .undefined none) ≤ 1 ∧
    activeCount (afterToggle twoActive (.num 1) none) ≤ 1 ∧
    afterToggle twoActive (.num 4) none = twoActive :=
  ⟨rfl,
   (userToggle_at_most_one_active twoActive .undefined none rfl).1 (by decide),
   (userToggle_at_most_one_active twoActive (.num 1) none rfl).2.1 "1"
     { name := "Style 1", enabled := true, prefix_ := "-", state := true }
     (by decide) (by decide) rfl,
   (userToggle_at_most_one_active twoActive (.num 4) none rfl).2.2 "4"
     { name := "Style 4", enabled := false, prefix_ := "?", state := false }
     (by decide) (by decide) rfl⟩

/-! ## Disabled styles (C2) -/

/-- C2: for every document (whatever `allowMultiple`) and every id that indexes
a toggle with `enabled = false`, `userToggle` logs the style and returns early:
it makes no `storage.local.set` call and the stored document is unchanged. -/
theorem userToggle_disabled_unchanged (stored : Settings) (styleArg : StyleArg)
    (newState : Option Bool) (digits : String) (t : Toggle)
    (hd : matchTrailingDigits (jsString styleArg) = some digits)
    (ht : toggleAt stored.toggles (styleIndex digits) = some t)
    (he : t.enabled = false) :
    userToggle stored styleArg newState =
      { status := .returnedEarly,
        effects := [.consoleLog [.str "Style is disabled", .toggle t]] } ∧
    (∀ written, Effect.storageSet written ∉ (userToggle stored styleArg newState).effects) ∧
    afterToggle stored styleArg newState = stored := by
  have hrun := userToggle_disabled newState hd ht he
  refine ⟨hrun, ?_, ?_⟩
  · intro written
    rw [hrun]
    simp
  · unfold afterToggle
    rw [hrun]
    rfl

/-- C2 at the default document: `userToggle(4)` (style 4 is disabled) changes
nothing, with `allowMultiple` off and with it on. -/
theorem userToggle_disabled_unchanged_witness :
    afterToggle defaultSettings (.num 4) none = defaultSettings ∧
    afterToggle defaultMultiple (.str "toggle-style-4") (some true) = defaultMultiple :=
  ⟨(userToggle_disabled_unchanged defaultSettings (.num 4) none "4"
      { name := "Style 4", enabled := false, prefix_ := "?", state := false }
      (by decide) (by decide) rfl).2.2,
   (userToggle_disabled_unchanged defaultMultiple (.str "toggle-style-4") (some true) "4"
      { name := "Style 4", enabled := false, prefix_ := "?", state := false }
      (by decide) (by decide) rfl).2.2⟩

/-! ## Reset without an id (C3) -/

/-- C3: for every document (any prior states, any `allowMultiple`),
`userToggle` called with no id (`undefined`), or with an argument whose string
form does not end in a digit, runs to its end and stores a document with the
same number of toggles in which every toggle has `state = false`. -/
theorem userToggle_noId_all_off (stored : Settings) (newState : Option Bool) :
    ((userToggle stored .undefined newState).status = .finished ∧
      ∀ t ∈ (afterToggle stored .undefined newState).toggles, t.state = false) ∧
    (∀ styleArg,
      (∀ c, (jsString styleArg).toList.getLast? = some c → c.isDigit = false) →
      (userToggle stored styleArg newState).status = .finished ∧
      (afterToggle stored styleArg newState).toggles.length = stored.toggles.length ∧
      ∀ t ∈ (afterToggle stored styleArg newState).toggles, t.state = false) := by
  have key : ∀ styleArg, matchTrailingDigits (jsString styleArg) = none →
      (userToggle stored styleArg newState).status = .finished ∧
      (afterToggle stored styleArg newState).toggles.length = stored.toggles.length ∧
      ∀ t ∈ (afterToggle stored styleArg newState).toggles, t.state = false := by
    intro styleArg hd
    rw [afterToggle_noId newState hd, userToggle_noId newState hd]
    refine ⟨rfl, by simp, ?_⟩
    intro u hu
    obtain ⟨v, _, rfl⟩ := List.mem_map.mp hu
    rfl
  have hundef : matchTrailingDigits (jsString .undefined) = none := by decide
  exact ⟨⟨(key _ hundef).1, (key _ hundef).2.2⟩,
    fun styleArg hlast => key styleArg ((matchTrailingDigits_eq_none_iff _).mpr hlast)⟩

/-- C3 at the document with styles 1 and 2 active and a command name without
digits: every toggle is off afterwards. -/
theorem userToggle_noId_all_off_witness :
    (∀ c, (jsString (.str "reset-styles")).toList.getLast? = some c → c.isDigit = false) ∧
    (afterToggle twoActive (.str "reset-styles") none).toggles.map (fun t => t.state) =
      [false, false, false, false, false, false] ∧
    ∀ t ∈ (afterToggle twoActive (.str "reset-styles") none).toggles, t.state = false :=
  ⟨by decide, by decide,
   ((userToggle_noId_all_off twoActive none).2 (.str "reset-styles") (by decide)).2.2⟩

/-! ## Toggling twice (C4) -/

/-- C4, as stated, fails: with `allowMultiple = false` and style 2 active,
`userToggle(1)` twice ends with every toggle off, so style 2 has lost its
state. -/
theorem userToggle_twice_loses_other :
    secondActive.general.allowMultiple = false ∧
    (∃ t, toggleAt secondActive.toggles 0 = some t ∧ t.enabled = true) ∧
    (afterToggle (afterToggle secondActive (.num 1) none) (.num 1) none).toggles.map
        (fun t => t.state) = [false, false, false, false, false, false] ∧
    (afterToggle (afterToggle secondActive (.num 1) none) (.num 1) none).toggles.map
        (fun t => t.state) ≠ secondActive.toggles.map (fun t => t.state) := by
  refine ⟨rfl, ⟨_, rfl, rfl⟩, ?_, ?_⟩ <;> decide

/-- C4 (amended): for every document with `allowMultiple = false` and every id
of an enabled toggle, two calls of `userToggle` with that id in succession give
the target toggle its original state and leave every other toggle off; when no
other toggle was active in the original document, the document after the two
calls is the original one. -/
theorem userToggle_twice_restores (stored : Settings) (styleArg : StyleArg)
    (first second : Option Bool) (digits : String) (t : Toggle)
    (hAM : stored.general.allowMultiple = false)
    (hd : matchTrailingDigits (jsString styleArg) = some digits)
    (ht : toggleAt stored.toggles (styleIndex digits) = some t)
    (he : t.enabled = true) :
    (∀ j, (afterToggle (afterToggle stored styleArg first) styleArg second).toggles[j]? =
      if j = (styleIndex digits).toNat then some t
      else (stored.toggles[j]?).map (fun u => { u with state := false })) ∧
    ((∀ j u, j ≠ (styleIndex digits).toNat → stored.toggles[j]? = some u → u.state = false) →
      afterToggle (afterToggle stored styleArg first) styleArg second = stored) := by
  obtain ⟨hk, hget⟩ := toggleAt_eq_some ht
  have hgen : (afterToggle stored styleArg first).general = stored.general := by
    rw [afterToggle_enabled first hd ht he]
  have hAM1 : (afterToggle stored styleArg first).general.allowMultiple = false := by
    rw [hgen, hAM]
  have ht1 : toggleAt (afterToggle stored styleArg first).toggles (styleIndex digits) =
      some { t with state := !t.state } := by
    unfold toggleAt
    rw [if_pos hk, getElem?_afterToggle_enabled first hd ht he, if_pos rfl]
  have hpoint : ∀ j,
      (afterToggle (afterToggle stored styleArg first) styleArg second).toggles[j]? =
      if j = (styleIndex digits).toNat then some t
      else (stored.toggles[j]?).map (fun u => { u with state := false }) := by
    intro j
    rw [getElem?_afterToggle_enabled second hd ht1 he, hAM1]
    by_cases hj : j = (styleIndex digits).toNat
    · simp [hj]
    · rw [if_neg hj, if_neg hj, getElem?_afterToggle_enabled first hd ht he, if_neg hj, hAM]
      cases stored.toggles[j]? <;> simp
  refine ⟨hpoint, ?_⟩
  intro hothers
  have htog : (afterToggle (afterToggle stored styleArg first) styleArg second).toggles =
      stored.toggles := by
    apply List.ext_getElem?
    intro j
    rw [hpoint j]
    by_cases hj : j = (styleIndex digits).toNat
    · rw [if_pos hj, hj, hget]
    · rw [if_neg hj]
      cases hu : stored.toggles[j]? with
      | none => rfl
      | some u =>
        have hs := hothers j u hj hu
        cases u
        simp_all
  have hgen2 : (afterToggle (afterToggle stored styleArg first) styleArg second).general =
      stored.general := by
    rw [afterToggle_enabled second hd ht1 he, hgen]
  exact settings_eq_of_fields htog hgen2

/-- C4 (amended) at the default document: `userToggle(2)` twice gives the
default document back. -/
theorem userToggle_twice_restores_witness :
    defaultSettings.general.allowMultiple = false ∧
    afterToggle (afterToggle defaultSettings (.num 2) none) (.num 2) none = defaultSettings :=
  ⟨rfl,
   (userToggle_twice_restores defaultSettings (.num 2) none none "2"
      { name := "Style 2", enabled := true, prefix_ := "=", state := false }
      rfl (by decide) (by decide) rfl).2
      (fun _ u _ hu =>
        (by decide : ∀ v ∈ defaultSettings.toggles, v.state = false) u (List.getElem?_mem hu))⟩

/-! ## The target is inverted (C5) -/

/-- C5: for every document, every id of an enabled toggle and every value of
the explicit state argument, the toggle stored at the target position after
`userToggle` is the target with its state negated, and the run is the same
whatever the explicit state argument is. -/
theorem userToggle_inverts_target (stored : Settings) (styleArg : StyleArg)
    (newState : Option Bool) (digits : String) (t : Toggle)
    (hd : matchTrailingDigits (jsString styleArg) = some digits)
    (ht : toggleAt stored.toggles (styleIndex digits) = some t)
    (he : t.enabled = true) :
    toggleAt (afterToggle stored styleArg newState).toggles (styleIndex digits) =
      some { t with state := !t.state } ∧
    (toggleAt (afterToggle stored styleArg newState).toggles (styleIndex digits)).map
      (fun u => u.state) = some (!t.state) ∧
    (∀ other : Option Bool,
      userToggle stored styleArg other = userToggle stored styleArg newState) := by
  obtain ⟨hk, _⟩ := toggleAt_eq_some ht
  have h1 : toggleAt (afterToggle stored styleArg newState).toggles (styleIndex digits) =
      some { t with state := !t.state } := by
    unfold toggleAt
    rw [if_pos hk, getElem?_afterToggle_enabled newState hd ht he, if_pos rfl]
  refine ⟨h1, ?_, ?_⟩
  · rw [h1]
    rfl
  · intro other
    rw [userToggle_enabled other hd ht he, userToggle_enabled newState hd ht he]

/-- C5 at the document with styles 1 and 2 active: `userToggle(2, true)` turns
style 2 off although the explicit state asks for on. -/
theorem userToggle_inverts_target_witness :
    (toggleAt twoActive.toggles 1).map (fun u => u.state) = some true ∧
    (toggleAt (afterToggle twoActive (.num 2) (some true)).toggles (styleIndex "2")).map
      (fun u => u.state) = some false :=
  ⟨by decide,
   (userToggle_inverts_target twoActive (.num 2) (some true) "2"
      { name := "Style 2", enabled := true, prefix_ := "=", state := true }
      (by decide) (by decide) rfl).2.1⟩

/-! ## The title prefix (C6) -/

/-- C6: for every document the prefix computed by the loop of
`updateTitlePrefixes`, which is the `titlePreface` it hands to
`browser.windows.update`, is the prefix in the words of the specification
(`specTitlePrefix`): all active prefixes joined in order when `allowMultiple`
is on, the prefix of the first active toggle when it is off; and it is the
empty string when no toggle is active. -/
theorem titlePrefix_eq_specTitlePrefix (settings : Settings) :
    titlePrefix settings = specTitlePrefix settings ∧
    (∀ currentWindow windowId, updateTitlePrefixes settings currentWindow windowId =
      [.windowsUpdate (windowId.getD currentWindow) (specTitlePrefix settings)]) ∧
    ((∀ t ∈ settings.toggles, t.state = false) → titlePrefix settings = "") := by
  have hspec : titlePrefix settings = specTitlePrefix settings := by
    unfold titlePrefix specTitlePrefix
    cases settings.general.allowMultiple
    · rw [titlePrefixLoop_single]
      cases settings.toggles.find? (fun t => t.state) <;> simp
    · rw [titlePrefixLoop_multiple]
      simp [String.join]
  refine ⟨hspec, ?_, ?_⟩
  · intro currentWindow windowId
    unfold updateTitlePrefixes
    rw [hspec]
  · intro hoff
    have hfilter : settings.toggles.filter (fun t => t.state) = [] := by
      rw [List.filter_eq_nil_iff]
      intro t ht
      simp [hoff t ht]
    have hfind : settings.toggles.find? (fun t => t.state) = none := by
      rw [List.find?_eq_none]
      intro t ht
      simp [hoff t ht]
    rw [hspec]
    unfold specTitlePrefix
    rw [hfilter, hfind]
    cases settings.general.allowMultiple <;> rfl

/-- C6 at concrete documents: the default document has the empty prefix; with
styles 1 and 2 active the prefix is `"-"` when `allowMultiple` is off. -/
theorem titlePrefix_eq_specTitlePrefix_witness :
    titlePrefix defaultSettings = "" ∧ specTitlePrefix twoActive = "-" ∧
    titlePrefix twoActive = "-" :=
  ⟨(titlePrefix_eq_specTitlePrefix defaultSettings).2.2 (by decide),
   by decide,
   (titlePrefix_eq_specTitlePrefix twoActive).1.trans (by decide)⟩

/-! ## Exclusive activation (C7) -/

/-- C7: for every document with `allowMultiple = false` and every id of an
enabled toggle whose state is false, after `userToggle` with that id the target
is stored with `state = true`, a toggle is active exactly when it is the target,
and the computed title prefix is the target's prefix. On the default document
`userToggle(1)` gives prefix `"-"`, and `userToggle(2)` after it gives style 1
off, style 2 on and prefix `"="`. -/
theorem userToggle_activates_only_target :
    (∀ (stored : Settings) (styleArg : StyleArg) (newState : Option Bool)
        (digits : String) (t : Toggle),
      stored.general.allowMultiple = false →
      matchTrailingDigits (jsString styleArg) = some digits →
      toggleAt stored.toggles (styleIndex digits) = some t →
      t.enabled = true → t.state = false →
      toggleAt (afterToggle stored styleArg newState).toggles (styleIndex digits) =
        some { t with state := true } ∧
      (∀ j u, (afterToggle stored styleArg newState).toggles[j]? = some u →
        (u.state = true ↔ j = (styleIndex digits).toNat)) ∧
      titlePrefix (afterToggle stored styleArg newState) = t.prefix_) ∧
    ((afterToggle defaultSettings (.num 1) none).toggles.map (fun t => t.state) =
        [true, false, false, false, false, false] ∧
      titlePrefix (afterToggle defaultSettings (.num 1) none) = "-") ∧
    ((afterToggle (afterToggle defaultSettings (.num 1) none) (.num 2) none).toggles.map
        (fun t => t.state) = [false, true, false, false, false, false] ∧
      titlePrefix (afterToggle (afterToggle defaultSettings (.num 1) none) (.num 2) none) =
        "=") := by
  refine ⟨?_, ⟨by decide, by decide⟩, ⟨by decide, by decide⟩⟩
  intro stored styleArg newState digits t hAM hd ht he hs
  obtain ⟨hk, _⟩ := toggleAt_eq_some ht
  have hget : (afterToggle stored styleArg newState).toggles[(styleIndex digits).toNat]? =
      some { t with state := true } := by
    rw [getElem?_afterToggle_enabled newState hd ht he, if_pos rfl, hs]
    rfl
  have honly : ∀ j u, (afterToggle stored styleArg newState).toggles[j]? = some u →
      (u.state = true ↔ j = (styleIndex digits).toNat) := by
    intro j u hu
    by_cases hj : j = (styleIndex digits).toNat
    · rw [hj, hget] at hu
      cases hu
      simp [hj]
    · rw [getElem?_afterToggle_enabled newState hd ht he, if_neg hj, hAM] at hu
      simp only [Bool.false_eq_true, if_false, Option.map_eq_some'] at hu
      obtain ⟨v, _, rfl⟩ := hu
      simp [hj]
  have hgen : (afterToggle stored styleArg newState).general = stored.general := by
    rw [afterToggle_enabled newState hd ht he]
  refine ⟨?_, honly, ?_⟩
  · unfold toggleAt
    rw [if_pos hk, hget]
  · unfold titlePrefix
    rw [hgen, hAM, titlePrefixLoop_single, find?_state_of_unique _ _ _ hget honly]
    simp

/-- C7 at the document with style 2 active: `userToggle(3)` leaves style 3 as
the only active one and the prefix is `"+"`. -/
theorem userToggle_activates_only_target_witness :
    secondActive.general.allowMultiple = false ∧
    titlePrefix (afterToggle secondActive (.num 3) none) = "+" :=
  ⟨rfl,
   (userToggle_activates_only_target.1 secondActive (.num 3) none "3"
      { name := "Style 3", enabled := true, prefix_ := "+", state := false }
      rfl (by decide) (by decide) rfl rfl).2.2⟩

/-! ## Several active styles (C8) -/

/-- C8: for every document with `allowMultiple = true` and every id of an
enabled toggle, `userToggle` stores the target with its state negated and every
other position of the toggle sequence as it was. On the default toggles with
`allowMultiple = true`, `userToggle(1)` then `userToggle(3)` leave styles 1 and
3 active and the computed prefix is `"-+"`. -/
theorem userToggle_multiple_changes_target_only :
    (∀ (stored : Settings) (styleArg : StyleArg) (newState : Option Bool)
        (digits : String) (t : Toggle),
      stored.general.allowMultiple = true →
      matchTrailingDigits (jsString styleArg) = some digits →
      toggleAt stored.toggles (styleIndex digits) = some t →
      t.enabled = true →
      toggleAt (afterToggle stored styleArg newState).toggles (styleIndex digits) =
        some { t with state := !t.state } ∧
      ∀ j, j ≠ (styleIndex digits).toNat →
        (afterToggle stored styleArg newState).toggles[j]? = stored.toggles[j]?) ∧
    ((afterToggle (afterToggle defaultMultiple (.num 1) none) (.num 3) none).toggles.map
        (fun t => t.state) = [true, false, true, false, false, false] ∧
      titlePrefix (afterToggle (afterToggle defaultMultiple (.num 1) none) (.num 3) none) =
        "-+") := by
  refine ⟨?_, by decide, by decide⟩
  intro stored styleArg newState digits t hAM hd ht he
  obtain ⟨hk, _⟩ := toggleAt_eq_some ht
  refine ⟨?_, ?_⟩
  · unfold toggleAt
    rw [if_pos hk, getElem?_afterToggle_enabled newState hd ht he, if_pos rfl]
  · intro j hj
    rw [getElem?_afterToggle_enabled newState hd ht he, if_neg hj, if_pos hAM]

/-- C8 at the document with styles 1 and 2 active and `allowMultiple` on:
`userToggle(3)` keeps styles 1 and 2 as they were. -/
theorem userToggle_multiple_changes_target_only_witness :
    (afterToggle { twoActive with general := defaultMultiple.general } (.num 3) none).toggles[0]?
      = twoActive.toggles[0]? ∧
    (afterToggle { twoActive with general := defaultMultiple.general } (.num 3) none).toggles[1]?
      = twoActive.toggles[1]? :=
  ⟨(userToggle_multiple_changes_target_only.1
      { twoActive with general := defaultMultiple.general } (.num 3) none "3"
      { name := "Style 3", enabled := true, prefix_ := "+", state := false }
      rfl (by decide) (by decide) rfl).2 0 (by decide),
   (userToggle_multiple_changes_target_only.1
      { twoActive with general := defaultMultiple.general } (.num 3) none "3"
      { name := "Style 3", enabled := true, prefix_ := "+", state := false }
      rfl (by decide) (by decide) rfl).2 1 (by decide)⟩

/-! ## The button (C9) -/

/-- C9: for every document with at least one toggle, the count made by
`updateButtonStatus` is the number of toggles with `enabled = true`; when it is
below 2 the run sets the title `"Turn <name of the first toggle> off"` if the
first toggle is active and `"... on"` if it is not, and sets the popup to
`null`; otherwise it sets the title `"Show userchrome toggles"` and the popup
`"popup/popup.html"`. -/
theorem updateButtonStatus_presentation (stored : Settings) (first : Toggle)
    (rest : List Toggle) (h : stored.toggles = first :: rest) :
    togglesEnabled stored.toggles = stored.toggles.countP (fun t => t.enabled) ∧
    (stored.toggles.countP (fun t => t.enabled) < 2 → first.state = true →
      updateButtonStatus stored =
        { status := .finished,
          effects := [.setTitle ("Turn " ++ first.name ++ " off"), .setPopup none,
                      .consoleLog [.str "Disabled popup mode"]] }) ∧
    (stored.toggles.countP (fun t => t.enabled) < 2 → first.state = false →
      updateButtonStatus stored =
        { status := .finished,
          effects := [.setTitle ("Turn " ++ first.name ++ " on"), .setPopup none,
                      .consoleLog [.str "Disabled popup mode"]] }) ∧
    (2 ≤ stored.toggles.countP (fun t => t.enabled) →
      updateButtonStatus stored =
        { status := .finished,
          effects := [.setTitle "Show userchrome toggles",
                      .setPopup (some "popup/popup.html"),
                      .consoleLog [.str "Enabled popup mode",
                        .num (stored.toggles.countP (fun t => t.enabled))]] }) := by
  have hcount : togglesEnabled stored.toggles = stored.toggles.countP (fun t => t.enabled) := by
    unfold togglesEnabled
    rw [foldl_count_enabled, Nat.zero_add]
  have hfirst : stored.toggles[0]? = some first := by
    rw [h]
    simp
  refine ⟨hcount, ?_, ?_, ?_⟩
  · intro hlt hs
    unfold updateButtonStatus
    rw [hcount, if_pos hlt, hfirst]
    simp only [hs, if_true, String.append_assoc]
    rfl
  · intro hlt hs
    unfold updateButtonStatus
    rw [hcount, if_pos hlt, hfirst]
    simp only [hs, Bool.false_eq_true, if_false, String.append_assoc]
    rfl
  · intro hge
    unfold updateButtonStatus
    rw [hcount, if_neg (by omega)]

/-- C9 at the document whose only enabled style is the first: single mode with
the title `"Turn Style 1 on"`; and at the default document: menu mode. -/
theorem updateButtonStatus_presentation_witness :
    updateButtonStatus singleStyle =
      { status := .finished,
        effects := [.setTitle ("Turn " ++ "Style 1" ++ " on"), .setPopup none,
                    .consoleLog [.str "Disabled popup mode"]] } ∧
    (updateButtonStatus defaultSettings).effects.take 2 =
      [.setTitle "Show userchrome toggles", .setPopup (some "popup/popup.html")] :=
  ⟨(updateButtonStatus_presentation singleStyle _ _ rfl).2.2.1 (by decide) rfl,
   by
    rw [(updateButtonStatus_presentation defaultSettings _ _ rfl).2.2.2 (by decide)]
    rfl⟩

/-! ## Migration of an old document (C10) -/

/-- C10, evaluated on the code: `updateSettings` never changes
`settingsVersion` (line 76 compares where an assignment was meant). On the
version 1.0 document `versionOne` it returns and stores a document that still
has version 1, not the default version; `notifyMe` is set to the default
`false`, and `allowMultiple` and the toggles are kept. -/
theorem updateSettings_keeps_old_version :
    (∀ settings : Settings,
      (updateSettings settings).1.general.settingsVersion = settings.general.settingsVersion) ∧
    versionOne.general.settingsVersion = 1 ∧
    (updateSettings versionOne).1.general.settingsVersion = 1 ∧
    (updateSettings versionOne).1.general.settingsVersion ≠
      defaultSettings.general.settingsVersion ∧
    (updateSettings versionOne).1.general.notifyMe = false ∧
    (updateSettings versionOne).1.general.allowMultiple = versionOne.general.allowMultiple ∧
    (updateSettings versionOne).1.toggles = versionOne.toggles ∧
    (updateSettings versionOne).2 = [.storageSet (updateSettings versionOne).1] := by
  have hgen : ∀ settings : Settings,
      (updateSettings settings).1.general.settingsVersion =
        settings.general.settingsVersion := by
    intro settings
    unfold updateSettings
    split
    · split <;> rfl
    · rfl
  have hlt : versionOne.general.settingsVersion < defaultSettings.general.settingsVersion := by
    simp only [versionOne, defaultSettings]
    norm_num
  have hlt2 : versionOne.general.settingsVersion < 12 / 10 := hlt
  have hrun : updateSettings versionOne =
      ({ versionOne with general := { versionOne.general with notifyMe := false } },
       [.storageSet { versionOne with general := { versionOne.general with notifyMe := false } }]) := by
    unfold updateSettings
    rw [if_pos hlt]
    simp only [if_pos hlt2]
    rfl
  refine ⟨hgen, rfl, ?_, ?_, ?_, ?_, ?_, ?_⟩
  · rw [hgen]
    rfl
  · rw [hgen]
    simp only [versionOne, defaultSettings]
    norm_num
  · rw [hrun]
  · rw [hrun]
  · rw [hrun]
  · rw [hrun]

/-! ## A current document is left alone (C11) -/

/-- C11: for every document whose `settingsVersion` is the current default
version or greater, `updateSettings` returns the document unchanged and makes
no API call, so no storage write. -/
theorem updateSettings_current_unchanged (settings : Settings)
    (h : defaultSettings.general.settingsVersion ≤ settings.general.settingsVersion) :
    updateSettings settings = (settings, []) ∧
    (updateSettings settings).1 = settings ∧
    (∀ written, Effect.storageSet written ∉ (updateSettings settings).2) := by
  have hrun := updateSettings_current (not_lt.mpr h)
  refine ⟨hrun, ?_, ?_⟩
  · rw [hrun]
  · intro written
    rw [hrun]
    simp

/-- C11 at the default document and at a document of version 2: both are
returned as they are, with no call made. -/
theorem updateSettings_current_unchanged_witness :
    updateSettings defaultSettings = (defaultSettings, []) ∧
    updateSettings versionTwo = (versionTwo, []) :=
  ⟨(updateSettings_current_unchanged defaultSettings (le_refl _)).1,
   (updateSettings_current_unchanged versionTwo (by
      simp only [versionTwo, defaultSettings]
      norm_num)).1⟩

/-! ## Migration twice (C12) -/

/-- C12: for every document, of any version, running `updateSettings` on the
document it returned gives that document again (and the same storage call, if
any): `updateSettings (updateSettings doc) = updateSettings doc`. -/
theorem updateSettings_idempotent (settings : Settings) :
    (updateSettings (updateSettings settings).1).1 = (updateSettings settings).1 ∧
    updateSettings (updateSettings settings).1 = updateSettings settings := by
  have hpair : updateSettings (updateSettings settings).1 = updateSettings settings := by
    by_cases h : settings.general.settingsVersion < defaultSettings.general.settingsVersion
    · rw [updateSettings_old h]
      have h' : ({ settings with
          general := { settings.general with notifyMe := false } } : Settings).general.settingsVersion
          < defaultSettings.general.settingsVersion := h
      rw [updateSettings_old h']
    · rw [updateSettings_current h, updateSettings_current h]
  exact ⟨by rw [hpair], hpair⟩

/-! ## Ids that index no toggle (C13) -/

/-- C13, evaluated on the code: on the default document (six toggles)
`userToggle(7)`, `userToggle(0)` and the command `"toggle-style-9"` end in a
`TypeError` at line 174, with nothing logged and no call made; the stored
document is unchanged. -/
theorem userToggle_outOfRange_raises :
    toggleAt defaultSettings.toggles (styleIndex "7") = none ∧
    userToggle defaultSettings (.num 7) none = { status := .typeError, effects := [] } ∧
    userToggle defaultSettings (.num 0) none = { status := .typeError, effects := [] } ∧
    userToggle defaultSettings (.str "toggle-style-9") none =
      { status := .typeError, effects := [] } ∧
    afterToggle defaultSettings (.num 7) none = defaultSettings := by
  refine ⟨by decide, ?_, ?_, ?_, ?_⟩
  · exact userToggle_outOfRange none (by decide : _ = some "7") (by decide)
  · exact userToggle_outOfRange none (by decide : _ = some "0") (by decide)
  · exact userToggle_outOfRange none (by decide : _ = some "9") (by decide)
  · exact afterToggle_outOfRange none (by decide : _ = some "7") (by decide)

/-! ## The transition description (C14) -/

/-- C14, as stated, fails: an id that is not valid need not give the
description `"all styles"`, `"off"`. On the default document with
`notifyMe = true`, `userToggle(4)` (style 4 is disabled) logs `"Style is
disabled"` and returns: there is no `"Toggling"` log line and no notification
at all. -/
theorem userToggle_disabled_gives_no_description :
    notifyDefault.general.notifyMe = true ∧
    (∃ t, toggleAt notifyDefault.toggles (styleIndex "4") = some t ∧ t.enabled = false) ∧
    (userToggle notifyDefault (.num 4) none).effects =
      [.consoleLog [.str "Style is disabled",
        .toggle { name := "Style 4", enabled := false, prefix_ := "?", state := false }]] ∧
    Effect.notificationsCreate "toggle-null" "Userchrome style toggle" "Turned all styles off"
      ∉ (userToggle notifyDefault (.num 4) none).effects ∧
    (∀ id title message,
      Effect.notificationsCreate id title message ∉
        (userToggle notifyDefault (.num 4) none).effects) ∧
    Effect.consoleLog [.str "Toggling", .null, .str "off"] ∉
      (userToggle notifyDefault (.num 4) none).effects := by
  have hrun : userToggle notifyDefault (.num 4) none =
      { status := .returnedEarly,
        effects := [.consoleLog [.str "Style is disabled",
          .toggle { name := "Style 4", enabled := false, prefix_ := "?", state := false }]] } :=
    userToggle_disabled none (by decide : _ = some "4") (by decide) rfl
  refine ⟨rfl,
    ⟨{ name := "Style 4", enabled := false, prefix_ := "?", state := false }, by decide, rfl⟩,
    ?_, ?_, ?_, ?_⟩
  · rw [hrun]
  · rw [hrun]
    simp
  · intro id title message
    rw [hrun]
    simp
  · rw [hrun]
    simp

/-- C14 (amended): the words `userToggle` logs and puts in the notification.
With no id (`undefined`, or no trailing digits) the name is `"all styles"` and
the state `"off"`: the message is `"Turned all styles off"`. With the id of an
enabled toggle the name is that toggle's and the state is `"on"` exactly when
the toggle stored at the target position after the call has `state = true`,
`"off"` otherwise. The notification is made when `notifyMe` is set. With the id
of a disabled toggle there is no description: the only call is the log line
`"Style is disabled"`. -/
theorem userToggle_transition_description (stored : Settings) (styleArg : StyleArg)
    (newState : Option Bool) :
    (matchTrailingDigits (jsString styleArg) = none →
      (userToggle stored styleArg newState).effects =
        [.consoleLog [.str "Toggling", .null, .str "off"]]
        ++ (if stored.general.notifyMe then
              [.notificationsCreate "toggle-null" "Userchrome style toggle"
                "Turned all styles off"]
            else [])
        ++ [.storageSet (afterToggle stored styleArg newState),
            .startUpdateTitlePrefixes, .startUpdateButtonStatus]) ∧
    (∀ digits t, matchTrailingDigits (jsString styleArg) = some digits →
      toggleAt stored.toggles (styleIndex digits) = some t → t.enabled = true →
      (userToggle stored styleArg newState).effects =
        [.consoleLog [.str "Toggling", .str digits,
          .str (if (toggleAt (afterToggle stored styleArg newState).toggles
                  (styleIndex digits)).map (fun u => u.state) = some true
                then "on" else "off")]]
        ++ (if stored.general.notifyMe then
              [.notificationsCreate ("toggle-" ++ digits) "Userchrome style toggle"
                ("Turned " ++ t.name ++ " " ++
                  (if (toggleAt (afterToggle stored styleArg newState).toggles
                        (styleIndex digits)).map (fun u => u.state) = some true
                   then "on" else "off"))]
            else [])
        ++ [.storageSet (afterToggle stored styleArg newState),
            .startUpdateTitlePrefixes, .startUpdateButtonStatus]) ∧
    (∀ digits t, matchTrailingDigits (jsString styleArg) = some digits →
      toggleAt stored.toggles (styleIndex digits) = some t → t.enabled = false →
      (userToggle stored styleArg newState).effects =
        [.consoleLog [.str "Style is disabled", .toggle t]]) := by
  refine ⟨?_, ?_, ?_⟩
  · intro hd
    rw [afterToggle_noId newState hd, userToggle_noId newState hd]
    rfl
  · intro digits t hd ht he
    obtain ⟨hk, _⟩ := toggleAt_eq_some ht
    have hafter : toggleAt (afterToggle stored styleArg newState).toggles (styleIndex digits) =
        some { t with state := !t.state } := by
      unfold toggleAt
      rw [if_pos hk, getElem?_afterToggle_enabled newState hd ht he, if_pos rfl]
    rw [hafter, afterToggle_enabled newState hd ht he, userToggle_enabled newState hd ht he]
    cases t.state <;> simp [reportAndSave]
  · intro digits t hd ht he
    rw [userToggle_disabled newState hd ht he]

/-- C14 (amended) at the default document with notifications on: a call with
no id notifies `"Turned all styles off"`, `userToggle(1)` notifies `"Turned
Style 1 on"`, and `userToggle(4)` only logs that the style is disabled. -/
theorem userToggle_transition_description_witness :
    Effect.notificationsCreate "toggle-null" "Userchrome style toggle" "Turned all styles off"
      ∈ (userToggle notifyDefault .undefined none).effects ∧
    Effect.notificationsCreate "toggle-1" "Userchrome style toggle" "Turned Style 1 on"
      ∈ (userToggle notifyDefault (.num 1) none).effects ∧
    (userToggle notifyDefault (.num 4) none).effects =
      [.consoleLog [.str "Style is disabled",
        .toggle { name := "Style 4", enabled := false, prefix_ := "?", state := false }]] := by
  refine ⟨?_, ?_, ?_⟩
  · rw [(userToggle_transition_description notifyDefault .undefined none).1 (by decide)]
    simp [notifyDefault]
  · rw [(userToggle_transition_description notifyDefault (.num 1) none).2.1 "1"
      { name := "Style 1", enabled := true, prefix_ := "-", state := false }
      (by decide) (by decide) rfl]
    decide
  · exact (userToggle_transition_description notifyDefault (.num 4) none).2.2 "4"
      { name := "Style 4", enabled := false, prefix_ := "?", state := false }
      (by decide) (by decide) rfl

/-! ## The message listener (C15) -/

/-- C15, as stated, fails: a message of type `"updateButtonStatus"` sets off
nothing, since the listener compares the type with `"updButtonStatus"`. -/
theorem handleMessage_updateButtonStatus_ignored :
    handleMessage { type := "updateButtonStatus", id := .undefined, state := none } = [] ∧
    Dispatch.updateButtonStatus ∉
      handleMessage { type := "updateButtonStatus", id := .undefined, state := none } := by
  refine ⟨by decide, by decide⟩

/-- C15 (amended): `handleMessage` dispatches on the message type. Type
`"toggle"` calls `userToggle` with the message's `id` and `state`; type
`"updButtonStatus"` calls `updateButtonStatus`; type `"getDefaults"` replies
with the default settings document; any other type sets off none of these. -/
theorem handleMessage_dispatch (message : Message) :
    (message.type = "toggle" →
      handleMessage message = [.userToggle message.id message.state]) ∧
    (message.type = "updButtonStatus" →
      handleMessage message = [.updateButtonStatus]) ∧
    (message.type = "getDefaults" →
      handleMessage message = [.sendResponse defaultSettings]) ∧
    (message.type ≠ "toggle" → message.type ≠ "updButtonStatus" →
      message.type ≠ "getDefaults" → handleMessage message = []) := by
  unfold handleMessage
  refine ⟨?_, ?_, ?_, ?_⟩
  · intro h
    simp [h]
  · intro h
    simp [h]
  · intro h
    simp [h]
  · intro h1 h2 h3
    simp [h1, h2, h3]

/-- C15 (amended) at concrete messages of each kind. -/
theorem handleMessage_dispatch_witness :
    handleMessage { type := "toggle", id := .num 2, state := some true } =
      [.userToggle (.num 2) (some true)] ∧
    handleMessage { type := "updButtonStatus", id := .undefined, state := none } =
      [.updateButtonStatus] ∧
    handleMessage { type := "getDefaults", id := .undefined, state := none } =
      [.sendResponse defaultSettings] ∧
    handleMessage { type := "reset", id := .undefined, state := none } = [] :=
  ⟨(handleMessage_dispatch { type := "toggle", id := .num 2, state := some true }).1 rfl,
   (handleMessage_dispatch { type := "updButtonStatus", id := .undefined, state := none }).2.1
     rfl,
   (handleMessage_dispatch { type := "getDefaults", id := .undefined, state := none }).2.2.1
     rfl,
   (handleMessage_dispatch { type := "reset", id := .undefined, state := none }).2.2.2
     (by decide) (by decide) (by decide)⟩

/-! ## Notification and storage write (C16) -/

/-- C16, as stated, fails: on the default document with `notifyMe = true`,
`userToggle(1)` makes the notification as its second call and the storage write
as its third, so the notification is not preceded by any write. -/
theorem userToggle_notifies_before_write :
    notifyDefault.general.notifyMe = true ∧
    (userToggle notifyDefault (.num 1) none).effects =
      [.consoleLog [.str "Toggling", .str "1", .str "on"],
       .notificationsCreate "toggle-1" "Userchrome style toggle" "Turned Style 1 on",
       .storageSet (afterToggle notifyDefault (.num 1) none),
       .startUpdateTitlePrefixes, .startUpdateButtonStatus] ∧
    ¬ notifiesAfterWrite (userToggle notifyDefault (.num 1) none).effects := by
  have heff : (userToggle notifyDefault (.num 1) none).effects =
      [.consoleLog [.str "Toggling", .str "1", .str "on"],
       .notificationsCreate "toggle-1" "Userchrome style toggle" "Turned Style 1 on",
       .storageSet (afterToggle notifyDefault (.num 1) none),
       .startUpdateTitlePrefixes, .startUpdateButtonStatus] := by
    rw [afterToggle_enabled none (by decide : _ = some "1")
        (by decide : _ = some { name := "Style 1", enabled := true, prefix_ := "-", state := false })
        rfl,
      userToggle_enabled none (by decide : _ = some "1")
        (by decide : _ = some { name := "Style 1", enabled := true, prefix_ := "-", state := false })
        rfl]
    rfl
  refine ⟨rfl, heff, ?_⟩
  intro h
  obtain ⟨j, written, hj, hget⟩ := h 1 _ _ _ (by rw [heff]; rfl)
  have hj0 : j = 0 := by omega
  rw [hj0, heff] at hget
  simp at hget

/-- C16 (amended): in every `userToggle` run with `notifyMe = true` that runs
to its end, the calls are, in order, the log line, the notification, the
storage write of the updated document and the two refresh calls: the
notification is made directly before the storage write, not after it. -/
theorem userToggle_notification_precedes_write (stored : Settings) (styleArg : StyleArg)
    (newState : Option Bool) (hnotify : stored.general.notifyMe = true)
    (hfinished : (userToggle stored styleArg newState).status = .finished) :
    ∃ logged id message,
      (userToggle stored styleArg newState).effects =
        [.consoleLog logged,
         .notificationsCreate id "Userchrome style toggle" message,
         .storageSet (afterToggle stored styleArg newState),
         .startUpdateTitlePrefixes, .startUpdateButtonStatus] := by
  rcases userToggle_cases stored styleArg with hd | ⟨digits, hd, ht⟩ | ⟨digits, t, hd, ht, he⟩ |
    ⟨digits, t, hd, ht, he⟩
  · rw [afterToggle_noId newState hd, userToggle_noId newState hd]
    exact ⟨_, _, _, by simp [reportAndSave, hnotify]; exact ⟨rfl, rfl, rfl⟩⟩
  · rw [userToggle_outOfRange newState hd ht] at hfinished
    cases hfinished
  · rw [userToggle_disabled newState hd ht he] at hfinished
    cases hfinished
  · rw [afterToggle_enabled newState hd ht he, userToggle_enabled newState hd ht he]
    exact ⟨_, _, _, by simp [reportAndSave, hnotify]; exact ⟨rfl, rfl, rfl⟩⟩

/-- C16 (amended) at the document of version 1.0, which has `notifyMe = true`:
the run of `userToggle(3)` has the notification second and the write third. -/
theorem userToggle_notification_precedes_write_witness :
    versionOne.general.notifyMe = true ∧
    ∃ logged id message,
      (userToggle versionOne (.num 3) none).effects =
        [.consoleLog logged,
         .notificationsCreate id "Userchrome style toggle" message,
         .storageSet (afterToggle versionOne (.num 3) none),
         .startUpdateTitlePrefixes, .startUpdateButtonStatus] :=
  ⟨rfl, userToggle_notification_precedes_write versionOne (.num 3) none rfl (by decide)⟩

/-! ## Decimal strings -/

theorem digitChar_digit {k : Nat} (hk : k < 10) :
    (Nat.digitChar k).isDigit = true ∧ (Nat.digitChar k).toNat - 48 = k := by
  interval_cases k <;> exact ⟨rfl, rfl⟩

/-- Reading the digits that `Nat.toDigitsCore` puts in front of `ds` gives `n`
as the starting value for reading `ds`. -/
theorem foldl_toDigitsCore (fuel n : Nat) (ds : List Char) (h : n < fuel) :
    (Nat.toDigitsCore 10 fuel n ds).foldl (fun acc c => 10 * acc + (c.toNat - 48)) 0 =
      ds.foldl (fun acc c => 10 * acc + (c.toNat - 48)) n := by
  induction fuel generalizing n ds with
  | zero => omega
  | succ fuel ih =>
    have hmod := (digitChar_digit (Nat.mod_lt n (by decide : 0 < 10))).2
    unfold Nat.toDigitsCore
    by_cases hq : n / 10 = 0
    · simp only [hq, if_true, List.foldl_cons, hmod]
      have : n % 10 = n := by omega
      rw [this]
      simp
    · simp only [hq, if_false]
      rw [ih (n / 10) _ (by omega)]
      simp only [List.foldl_cons, hmod]
      have : 10 * (n / 10) + n % 10 = n := by omega
      rw [this]

theorem isDigit_toDigitsCore (fuel n : Nat) (ds : List Char)
    (hds : ∀ c ∈ ds, c.isDigit = true) :
    ∀ c ∈ Nat.toDigitsCore 10 fuel n ds, c.isDigit = true := by
  induction fuel generalizing n ds with
  | zero => simpa [Nat.toDigitsCore] using hds
  | succ fuel ih =>
    have hdig := (digitChar_digit (Nat.mod_lt n (by decide : 0 < 10))).1
    have hcons : ∀ c ∈ Nat.digitChar (n % 10) :: ds, c.isDigit = true := by
      intro c hc
      rcases List.mem_cons.mp hc with rfl | hc
      · exact hdig
      · exact hds c hc
    unfold Nat.toDigitsCore
    by_cases hq : n / 10 = 0
    · simpa only [hq, if_true] using hcons
    · simp only [hq, if_false]
      exact ih _ _ hcons

theorem toDigitsCore_ne_nil (fuel n : Nat) (ds : List Char) (h : ds ≠ [] ∨ 0 < fuel) :
    Nat.toDigitsCore 10 fuel n ds ≠ [] := by
  induction fuel generalizing n ds with
  | zero =>
    rcases h with h | h
    · simpa [Nat.toDigitsCore] using h
    · omega
  | succ fuel ih =>
    unfold Nat.toDigitsCore
    by_cases hq : n / 10 = 0
    · simp [hq]
    · simp only [hq, if_false]
      exact ih _ _ (Or.inl (by simp))

/-- The pattern `/[0-9]+$/` on a string that is some text not ending in a digit
followed by a non-empty run of digits: the match is that run. -/
theorem matchTrailingDigits_append (pre d : String) (hne : d ≠ "")
    (hd : ∀ c ∈ d.toList, c.isDigit = true)
    (hpre : ∀ c, pre.toList.getLast? = some c → c.isDigit = false) :
    matchTrailingDigits (pre ++ d) = some d := by
  have hnil : d.toList ≠ [] := by
    intro h
    apply hne
    cases d
    simp_all
  have htake : List.takeWhile Char.isDigit pre.toList.reverse = [] := by
    rw [List.getLast?_eq_head?_reverse] at hpre
    cases hrev : pre.toList.reverse with
    | nil => rfl
    | cons c rest =>
      rw [hrev] at hpre
      simp [List.takeWhile_cons, hpre c rfl]
  have hall : ∀ c ∈ d.toList.reverse, Char.isDigit c = true := by
    intro c hc
    exact hd c (List.mem_reverse.mp hc)
  unfold matchTrailingDigits
  simp only [String.toList, String.data_append, List.reverse_append] at hall htake hnil ⊢
  rw [List.takeWhile_append_of_pos hall, htake]
  simp [hnil]

theorem matchTrailingDigits_digits (d : String) (hne : d ≠ "")
    (hd : ∀ c ∈ d.toList, c.isDigit = true) :
    matchTrailingDigits d = some d := by
  have := matchTrailingDigits_append "" d hne hd (by simp)
  rwa [String.empty_append] at this

/-- Printing a number and matching the pattern on the result gives the printed
number back, and reading it gives the number. -/
theorem matchTrailingDigits_toString (n : Nat) :
    matchTrailingDigits (toString n) = some (toString n) ∧ toNumber (toString n) = n := by
  have hrepr : toString n = String.mk (Nat.toDigits 10 n) := rfl
  refine ⟨?_, ?_⟩
  · apply matchTrailingDigits_digits
    · rw [hrepr]
      intro h
      have hnil : Nat.toDigits 10 n = [] := by
        have := congrArg String.data h
        simpa using this
      exact toDigitsCore_ne_nil (n + 1) n [] (Or.inr (by omega)) hnil
    · rw [hrepr]
      exact isDigit_toDigitsCore (n + 1) n [] (by simp)
  · rw [hrepr]
    unfold toNumber
    exact foldl_toDigitsCore (n + 1) n [] (by omega)

/-! ## Shared facts on runs of calls -/

theorem toggleAt_afterToggle_enabled {stored : Settings} {styleArg : StyleArg}
    {digits : String} {t : Toggle} (newState : Option Bool)
    (hd : matchTrailingDigits (jsString styleArg) = some digits)
    (ht : toggleAt stored.toggles (styleIndex digits) = some t)
    (he : t.enabled = true) :
    toggleAt (afterToggle stored styleArg newState).toggles (styleIndex digits) =
      some { t with state := !t.state } := by
  obtain ⟨hk, _⟩ := toggleAt_eq_some ht
  unfold toggleAt
  rw [if_pos hk, getElem?_afterToggle_enabled newState hd ht he, if_pos rfl]

/-- Exclusivity is kept along any sequence of calls. -/
theorem afterCalls_keeps_exclusive (calls : List (StyleArg × Option Bool)) (start : Settings)
    (hAM : start.general.allowMultiple = false) (hone : activeCount start ≤ 1) :
    activeCount (afterCalls start calls) ≤ 1 ∧
    (afterCalls start calls).general = start.general := by
  induction calls generalizing start with
  | nil => exact ⟨hone, rfl⟩
  | cons call rest ih =>
    have hgen := afterToggle_general start call.1 call.2
    have hstep := ih (afterToggle start call.1 call.2) (by rw [hgen, hAM])
      (activeCount_afterToggle start call.1 call.2 hAM hone)
    exact ⟨hstep.1, hstep.2.trans hgen⟩

/-! ## The reachable documents (C17) -/

/-- C17: starting from the default document (no toggle active, `allowMultiple`
off) and making any finite sequence of `userToggle` calls with arbitrary
arguments, the document reached has at most one toggle with `state = true`, and
`allowMultiple` is still off. -/
theorem afterCalls_default_at_most_one_active (calls : List (StyleArg × Option Bool)) :
    activeCount defaultSettings = 0 ∧
    activeCount (afterCalls defaultSettings calls) ≤ 1 ∧
    (afterCalls defaultSettings calls).general.allowMultiple = false := by
  have h := afterCalls_keeps_exclusive calls defaultSettings rfl (by decide)
  refine ⟨by decide, h.1, ?_⟩
  rw [h.2]
  rfl

/-! ## Disabled styles stay off (C18) -/

/-- C18: for every document and every `userToggle` call, with any id and any
`allowMultiple`, a toggle that has `enabled = false` and `state = false` before
the call has `state = false` at the same position after it. -/
theorem userToggle_never_activates_disabled (stored : Settings) (styleArg : StyleArg)
    (newState : Option Bool) (j : Nat) (before after : Toggle)
    (hbefore : stored.toggles[j]? = some before)
    (hafter : (afterToggle stored styleArg newState).toggles[j]? = some after)
    (hdisabled : before.enabled = false) (hoff : before.state = false) :
    after.state = false := by
  rcases userToggle_cases stored styleArg with hd | ⟨digits, hd, ht⟩ | ⟨digits, t, hd, ht, he⟩ |
    ⟨digits, t, hd, ht, he⟩
  · rw [afterToggle_noId newState hd] at hafter
    simp only [List.getElem?_map, Option.map_eq_some'] at hafter
    obtain ⟨v, _, rfl⟩ := hafter
    rfl
  · rw [afterToggle_outOfRange newState hd ht, hbefore] at hafter
    cases hafter
    exact hoff
  · rw [afterToggle_disabled newState hd ht he, hbefore] at hafter
    cases hafter
    exact hoff
  · obtain ⟨_, hget⟩ := toggleAt_eq_some ht
    rw [getElem?_afterToggle_enabled newState hd ht he] at hafter
    by_cases hj : j = (styleIndex digits).toNat
    · rw [hj, hget] at hbefore
      cases hbefore
      rw [he] at hdisabled
      cases hdisabled
    · rw [if_neg hj, hbefore] at hafter
      cases hAM : stored.general.allowMultiple
      · rw [hAM] at hafter
        simp only [Bool.false_eq_true, if_false, Option.map_some', Option.some.injEq] at hafter
        rw [← hafter]
      · rw [hAM] at hafter
        simp only [if_true, Option.some.injEq] at hafter
        rw [← hafter]
        exact hoff

/-- C18 at the default document with several styles allowed: after
`userToggle(1)` the disabled style 4 is still off. -/
theorem userToggle_never_activates_disabled_witness :
    defaultMultiple.toggles[3]? =
      some { name := "Style 4", enabled := false, prefix_ := "?", state := false } ∧
    ((afterToggle defaultMultiple (.num 1) none).toggles[3]?).map (fun t => t.state) =
      some false := by
  have hafter : (afterToggle defaultMultiple (.num 1) none).toggles[3]? =
      some { name := "Style 4", enabled := false, prefix_ := "?", state := false } := by
    decide
  refine ⟨rfl, ?_⟩
  rw [hafter]
  exact congrArg some
    (userToggle_never_activates_disabled defaultMultiple (.num 1) none 3 _ _ rfl hafter rfl rfl)

/-! ## The id is read off the end of the argument (C19) -/

/-- C19: for every command string made of a text that does not end in a digit
followed by a non-empty run of digits `d`, the pattern yields `d`, the run of
`userToggle` is the run on `d` alone (the rest of the string is ignored), and
the toggle it inverts is the one at 1-based position `toNumber d`, the decimal
value of `d`. A numeric argument `n` that is an integer up to `2^53` (every
position of an array is far below that; larger numbers are not printed digit
for digit) is printed, matched whole and read back as `n`, so it selects the
toggle at 1-based position `n`. -/
theorem userToggle_selects_by_trailing_digits :
    (∀ (pre d : String), d ≠ "" → (∀ c ∈ d.toList, c.isDigit = true) →
      (∀ c, pre.toList.getLast? = some c → c.isDigit = false) →
      matchTrailingDigits (jsString (.str (pre ++ d))) = some d ∧
      (∀ stored newState,
        userToggle stored (.str (pre ++ d)) newState = userToggle stored (.str d) newState) ∧
      (∀ stored newState t,
        toggleAt stored.toggles ((toNumber d : Int) - 1) = some t → t.enabled = true →
        toggleAt (afterToggle stored (.str (pre ++ d)) newState).toggles
          ((toNumber d : Int) - 1) = some { t with state := !t.state })) ∧
    (∀ n : Nat, n ≤ 2 ^ 53 →
      matchTrailingDigits (jsString (.num n)) = some (toString n) ∧
      toNumber (toString n) = n ∧
      (∀ stored newState t,
        toggleAt stored.toggles ((n : Int) - 1) = some t → t.enabled = true →
        toggleAt (afterToggle stored (.num n) newState).toggles ((n : Int) - 1) =
          some { t with state := !t.state })) := by
  refine ⟨?_, ?_⟩
  · intro pre d hne hd hpre
    have h1 : matchTrailingDigits (jsString (.str (pre ++ d))) = some d :=
      matchTrailingDigits_append pre d hne hd hpre
    have h2 : matchTrailingDigits (jsString (.str d)) = some d :=
      matchTrailingDigits_digits d hne hd
    refine ⟨h1, ?_, ?_⟩
    · intro stored newState
      unfold userToggle
      simp only [h1, h2]
    · intro stored newState t ht he
      exact toggleAt_afterToggle_enabled newState h1 ht he
  · intro n _
    have hn := matchTrailingDigits_toString n
    have h1 : matchTrailingDigits (jsString (.num n)) = some (toString n) := hn.1
    refine ⟨h1, hn.2, ?_⟩
    intro stored newState t ht he
    have hidx : styleIndex (toString n) = (n : Int) - 1 := by
      unfold styleIndex
      rw [hn.2]
    rw [← hidx] at ht ⊢
    exact toggleAt_afterToggle_enabled newState h1 ht he

/-- C19 on the default document: for the command `"toggle-style-3"` the match
is `"3"` and style 3 is switched on; for the number `2` the match is `"2"` and
style 2 is switched on. -/
theorem userToggle_selects_by_trailing_digits_witness :
    "toggle-style-" ++ "3" = "toggle-style-3" ∧
    matchTrailingDigits (jsString (.str ("toggle-style-" ++ "3"))) = some "3" ∧
    toggleAt (afterToggle defaultSettings (.str ("toggle-style-" ++ "3")) none).toggles
        ((toNumber "3" : Int) - 1) =
      some { name := "Style 3", enabled := true, prefix_ := "+", state := true } ∧
    2 ≤ 2 ^ 53 ∧
    matchTrailingDigits (jsString (.num 2)) = some (toString 2) ∧
    toggleAt (afterToggle defaultSettings (.num 2) none).toggles ((2 : Nat) - 1 : Int) =
      some { name := "Style 2", enabled := true, prefix_ := "=", state := true } :=
  have hpre : ∀ c, "toggle-style-".toList.getLast? = some c → c.isDigit = false := by
    intro c hc
    have hlast : "toggle-style-".toList.getLast? = some '-' := by decide
    rw [hlast] at hc
    cases hc
    decide
  ⟨by decide,
   (userToggle_selects_by_trailing_digits.1 "toggle-style-" "3" (by decide) (by decide) hpre).1,
   (userToggle_selects_by_trailing_digits.1 "toggle-style-" "3" (by decide) (by decide)
      hpre).2.2 defaultSettings none
      { name := "Style 3", enabled := true, prefix_ := "+", state := false }
      (by decide) rfl,
   by norm_num,
   (userToggle_selects_by_trailing_digits.2 2 (by norm_num)).1,
   (userToggle_selects_by_trailing_digits.2 2 (by norm_num)).2.2 defaultSettings none
      { name := "Style 2", enabled := true, prefix_ := "=", state := false }
      (by decide) rfl⟩

/-! ## Only states change (C20) -/

/-- C20: for every document and every `userToggle` call, the document after the
call has the same number of toggles, each position keeps its `name`, `enabled`
and `prefix`, and the general settings (`settingsVersion`, `allowMultiple`,
`notifyMe`) are unchanged: only `state` fields can differ. -/
theorem userToggle_changes_states_only (stored : Settings) (styleArg : StyleArg)
    (newState : Option Bool) :
    (afterToggle stored styleArg newState).toggles.length = stored.toggles.length ∧
    (afterToggle stored styleArg newState).toggles.map fixedFields =
      stored.toggles.map fixedFields ∧
    (∀ (j : Nat) (after : Toggle),
      (afterToggle stored styleArg newState).toggles[j]? = some after →
      ∃ before : Toggle, stored.toggles[j]? = some before ∧ after.name = before.name ∧
        after.enabled = before.enabled ∧ after.prefix_ = before.prefix_) ∧
    (afterToggle stored styleArg newState).general = stored.general := by
  have hmap := afterToggle_fixedFields stored styleArg newState
  refine ⟨?_, hmap, ?_, afterToggle_general stored styleArg newState⟩
  · have := congrArg List.length hmap
    simpa using this
  · intro j after hafter
    have hj := congrArg (fun l => l[j]?) hmap
    simp only [List.getElem?_map, hafter, Option.map_some'] at hj
    cases hb : stored.toggles[j]? with
    | none =>
      rw [hb] at hj
      cases hj
    | some before =>
      rw [hb] at hj
      simp only [Option.map_some', Option.some.injEq, fixedFields, Prod.mk.injEq] at hj
      exact ⟨before, rfl, hj.1, hj.2.1, hj.2.2⟩

end UCT
